import Mathlib

/-!
Verification of the message-dispatch core of the Eve chat orchestrator:
history normalization, error classification, directive parsing, the
two-stage visual pipeline, and credential rotation.  Definitions are a
shallow embedding of `services/geminiService.ts` and `App.tsx`.
-/

set_option maxRecDepth 4000

namespace Eve

/-- Role of a chat message / turn (`'user' | 'model'` in the source). -/
inductive Role where
  | user
  | model
deriving DecidableEq

/-- Language selector (`'english' | 'manglish'`). -/
inductive Language where
  | english
  | manglish
deriving DecidableEq

/-- One part of a Gemini `Content`: plain text or inline image data. -/
inductive Part where
  | text (s : String)
  | inlineData (mimeType : String) (data : String)
deriving DecidableEq

/-- A Gemini `Content` turn: a role with an ordered list of parts. -/
structure Content where
  role : Role
  parts : List Part
deriving DecidableEq

/-- A chat `Message` as stored by the app (the fields the dispatch core reads). -/
structure Message where
  id : String
  role : Role
  text : String
  image : Option String
  isError : Bool
  isImageLoading : Bool
deriving DecidableEq

/-- A configured credential (`ApiKeyDef`). -/
structure ApiKeyDef where
  id : String
  label : String
  key : String
deriving DecidableEq

/-- Error taxonomy of the classifier. -/
inductive ErrorType where
  | QUOTA_EXCEEDED
  | AUTH_ERROR
  | GENERAL
deriving DecidableEq

/-- Visual directive type (`'scene' | 'selfie'`). -/
inductive VisualType where
  | scene
  | selfie
deriving DecidableEq

/-- JavaScript `\\s` whitespace class. -/
def wsChar (c : Char) : Bool :=
  c == ' ' || c == '\t' || c == '\n' || c == '\r' || c == '\x0b' || c == '\x0c' ||
  c == '\u00A0' || c == '\u1680' || ('\u2000' ≤ c && c ≤ '\u200A') ||
  c == '\u2028' || c == '\u2029' || c == '\u202F' || c == '\u205F' ||
  c == '\u3000' || c == '\uFEFF'

/-- JavaScript regexp `.` (without the `s` flag): any char except a line terminator. -/
def dotChar (c : Char) : Bool :=
  !(c == '\n' || c == '\r' || c == '\u2028' || c == '\u2029')

/-- JavaScript regexp `\w` word character. -/
def wordChar (c : Char) : Bool :=
  ('a' ≤ c && c ≤ 'z') || ('A' ≤ c && c ≤ 'Z') || ('0' ≤ c && c ≤ '9') || c == '_'

/-- Trim JS-style whitespace from both ends of a char list (JS `String.trim`). -/
def trimL (s : List Char) : List Char :=
  ((s.dropWhile wsChar).reverse.dropWhile wsChar).reverse

/-- Trim JS-style whitespace from both ends of a string. -/
def trimS (s : String) : String :=
  ⟨trimL s.data⟩

/-- `pat` is a prefix of `s` (char lists). -/
def leadsWith : List Char → List Char → Bool
  | [], _ => true
  | _ :: _, [] => false
  | p :: ps, c :: cs => p == c && leadsWith ps cs

/-- `pat` occurs as a contiguous substring of `s` (JS `String.includes`). -/
def hasSub (s pat : List Char) : Bool :=
  match s with
  | [] => pat.isEmpty
  | _ :: t => leadsWith pat s || hasSub t pat

/-- String-level substring containment (JS `includes`), used by the classifier. -/
def strContains (s pat : String) : Bool :=
  hasSub s.data pat.data

/-- Lower-case a string character-wise (JS `toLowerCase` on the relevant inputs). -/
def strLower (s : String) : String :=
  ⟨s.data.map Char.toLower⟩

/-- JS `Array.findIndex` returning `none` for `-1`. -/
def jsFindIndex {α : Type} (pred : α → Bool) : List α → Option Nat
  | [] => none
  | a :: t => if pred a then some 0 else (jsFindIndex pred t).map (· + 1)

/-- The predicate `k.id === keyIdToTry` used by the rotation loop
(`keyIdToTry` may be `null`, which matches nothing). -/
def idMatches (keyIdToTry : Option String) (k : ApiKeyDef) : Bool :=
  match keyIdToTry with
  | some s => k.id == s
  | none => false

/-- Split `s` at the last occurrence of `sep`, returning the part before the
separator and the part after it (`none` when `sep` does not occur). -/
def lastSepSplit (sep : List Char) : List Char → Option (List Char × List Char)
  | [] => none
  | c :: t =>
    match lastSepSplit sep t with
    | some (pre, post) => some (c :: pre, post)
    | none =>
      if leadsWith sep (c :: t) then some ([], (c :: t).drop sep.length) else none

/-- Capture of `/^data:(.*);base64,/` (greedy `.*`, which excludes line
terminators) applied to an attachment string: the mime type between `data:`
and the last `;base64,` of the first line, or `none` when there is no match. -/
def dataUrlMime (s : String) : Option String :=
  if leadsWith "data:".data s.data then
    let line := s.data.takeWhile dotChar
    match lastSepSplit ";base64,".data line with
    | some (pre, _) => some ⟨pre.drop 5⟩
    | none => none
  else none

/-- `s.replace(/^data:image\/\w+;base64,/, "")`: strip the data-URL head
when the mime type is `image/` followed by word characters; otherwise the
string is returned unchanged. -/
def stripDataImageHead (s : String) : String :=
  if leadsWith "data:image/".data s.data then
    let rest := s.data.drop 11
    let run := rest.takeWhile wordChar
    let after := rest.drop run.length
    if 0 < run.length ∧ leadsWith ";base64,".data after then
      ⟨after.drop 8⟩
    else s
  else s

/-- Parts contributed by one message in `formatHistoryForGemini`
(lines 98-111 of the service): errors are dropped; a user message carries an
optional inline image followed by its text when non-empty and is dropped when
it contributes no parts; a model message always carries one text part with
the `"..."` placeholder for empty text. -/
def messageContent (h : Message) : Option Content :=
  if h.isError then none
  else match h.role with
  | Role.user =>
    let imageParts : List Part :=
      match h.image with
      | some img =>
        if leadsWith "data:".data img.data then
          match dataUrlMime img with
          | some mt =>
            let d := stripDataImageHead img
            if d ≠ "" ∧ mt ≠ "" then [Part.inlineData mt d] else []
          | none => []
        else []
      | none => []
    let parts := imageParts ++ (if h.text ≠ "" then [Part.text h.text] else [])
    if 0 < parts.length then some { role := Role.user, parts := parts } else none
  | Role.model =>
    some { role := Role.model, parts := [Part.text (if h.text = "" then "..." else h.text)] }

/-- Inner loop of the merge pass (lines 117-126): `current` is the turn being
accumulated; adjacent same-role turns concatenate their parts. -/
def mergeRunsGo (current : Content) : List Content → List Content
  | [] => [current]
  | c :: rest =>
    if c.role = current.role then
      mergeRunsGo { role := current.role, parts := current.parts ++ c.parts } rest
    else
      current :: mergeRunsGo c rest

/-- Merge pass of `formatHistoryForGemini` (lines 115-127). -/
def mergeRuns : List Content → List Content
  | [] => []
  | c :: rest => mergeRunsGo c rest

/-- Guard of the trailing-placeholder append (line 129):
`merged.length > 1 && merged[merged.length - 1].role === 'user'`. -/
def needsPlaceholder (l : List Content) : Bool :=
  decide (1 < l.length) &&
    (match l.getLast? with
     | some c => c.role == Role.user
     | none => false)

/-- `formatHistoryForGemini` (lines 95-133): drop errors, build parts,
merge same-role runs, trim leading model turns, and append a model
placeholder when the result (of length > 1) ends on a user turn. -/
def formatHistoryForGemini (history : List Message) : List Content :=
  let validHistory := history.filterMap messageContent
  let merged := mergeRuns validHistory
  let trimmed := merged.dropWhile (fun c => c.role == Role.model)
  if needsPlaceholder trimmed then
    trimmed ++ [{ role := Role.model, parts := [Part.text "..."] }]
  else trimmed

/-- Scan the lazy `.*?]` tail of a directive pattern: take `.`-chars up to
the first `]`, failing on a line terminator or end of input (backtracking
cannot help, because every candidate description would still contain the
blocking line terminator).  Returns the capture and the remainder. -/
def scanToBracket : List Char → Option (List Char × List Char)
  | [] => none
  | c :: t =>
    if c = ']' then some ([], t)
    else if dotChar c then
      match scanToBracket t with
      | some (d, rest) => some (c :: d, rest)
      | none => none
    else none

/-- Match of `(?::\s*(.*?))?\]` directly after a `[KEYWORD` head: either `:`
followed by greedy whitespace, the lazy capture and the first reachable `]`,
or an immediate `]` (the optional group not taken).  Returns the capture and
the remainder of the input after the match. -/
def matchAfterKeyword : List Char → Option (Option (List Char) × List Char)
  | [] => none
  | c :: t =>
    if c = ':' then
      let b := t.drop (t.takeWhile wsChar).length
      match scanToBracket b with
      | some (d, rest) => some (some d, rest)
      | none => none
    else if c = ']' then some (none, t)
    else none

/-- Try to match `/\[KEYWORD(?::\s*(.*?))?\]/` at the head of `s`. -/
def tryMatchTag (kw : List Char) (s : List Char) : Option (Option (List Char) × List Char) :=
  if s.take (kw.length + 1) = '[' :: kw then
    matchAfterKeyword (s.drop (kw.length + 1))
  else none

/-- A successful bracket scan consumes at least one character. -/
def scanToBracket_shrinks : ∀ (s d rest : List Char),
    scanToBracket s = some (d, rest) → rest.length < s.length := by
  intro s
  induction s with
  | nil => intro d rest h; simp [scanToBracket] at h
  | cons c t ih =>
    intro d rest h
    simp only [scanToBracket] at h
    split at h
    · rcases h with ⟨rfl, rfl⟩
      simp
    · split at h
      · cases heq : scanToBracket t with
        | none => rw [heq] at h; simp at h
        | some p =>
          rw [heq] at h
          obtain ⟨d0, r0⟩ := p
          rcases h with ⟨rfl, rfl⟩
          have := ih d0 rest heq
          simp
          omega
      · simp at h

/-- A successful tail match consumes at least one character. -/
def matchAfterKeyword_shrinks : ∀ (s : List Char) (d : Option (List Char)) (rest : List Char),
    matchAfterKeyword s = some (d, rest) → rest.length < s.length := by
  intro s d rest h
  match s with
  | [] => simp [matchAfterKeyword] at h
  | c :: t =>
    simp only [matchAfterKeyword] at h
    split at h
    · cases heq : scanToBracket (t.drop (t.takeWhile wsChar).length) with
      | none => rw [heq] at h; simp at h
      | some p =>
        rw [heq] at h
        obtain ⟨d0, r0⟩ := p
        rcases h with ⟨rfl, rfl⟩
        have h1 := scanToBracket_shrinks _ _ _ heq
        have h2 : (t.drop (t.takeWhile wsChar).length).length ≤ t.length := by
          simp
        simp only [List.length_cons]
        omega
    · split at h
      · rcases h with ⟨rfl, rfl⟩
        simp
      · simp at h

/-- A successful tag match consumes at least one character. -/
def tryMatchTag_shrinks : ∀ (kw s : List Char) (d : Option (List Char)) (rest : List Char),
    tryMatchTag kw s = some (d, rest) → rest.length < s.length := by
  intro kw s d rest h
  simp only [tryMatchTag] at h
  split at h
  case isTrue htake =>
    have h1 := matchAfterKeyword_shrinks _ _ _ h
    have h2 : (s.drop (kw.length + 1)).length ≤ s.length := by simp
    have h3 : 0 < s.length := by
      by_contra hc
      have : s = [] := by
        cases s with
        | nil => rfl
        | cons a t => simp at hc
      subst this
      simp [List.take] at htake
    omega
  case isFalse => simp at h

/-- Fuel-driven worker for `replaceTag`: remove every match in one
left-to-right pass, resuming after each removed match (JS `replace` with the
`g` flag does not rescan the text it has already produced).  Each step
consumes one unit of fuel, and a match consumes at least one character, so
fuel at least the input length is always enough. -/
def replaceTagF (kw : List Char) : Nat → List Char → List Char
  | 0, s => s
  | _ + 1, [] => []
  | fuel + 1, c :: t =>
    match tryMatchTag kw (c :: t) with
    | some (_, rest) => replaceTagF kw fuel rest
    | none => c :: replaceTagF kw fuel t

/-- `s.replace(/\[KEYWORD(?::\s*.*?)?\]/g, "")`. -/
def replaceTag (kw : List Char) (s : List Char) : List Char :=
  replaceTagF kw s.length s

/-- `s.match(/\[KEYWORD(?::\s*(.*?))?\]/)`: capture group 1 of the first
match (`none` when no match; `some none` when the match has no description). -/
def findTag (kw : List Char) : List Char → Option (Option (List Char))
  | [] => none
  | c :: t =>
    match tryMatchTag kw (c :: t) with
    | some (d, _) => some d
    | none => findTag kw t

/-- The `SELFIE` keyword. -/
def SELFIEkw : List Char := "SELFIE".data

/-- The `SCENE` keyword. -/
def SCENEkw : List Char := "SCENE".data

/-- A directive tag (either kind) occurs somewhere in `s`. -/
def containsTag (s : List Char) : Bool :=
  (findTag SELFIEkw s).isSome || (findTag SCENEkw s).isSome

/-- The fixed user trigger-word list (line 389). -/
def userTriggerWords : List String :=
  ["photo", "pic", "selfie", "image", "see you", "show me", "nude", "naked",
   "look at you", "send me"]

/-- Initial value of the module-level turn counter (line 47 of the service:
`let textOnlyMessageCount = 4; // Start high so first message can trigger if needed`). -/
def textOnlyMessageCountInit : Nat := 4

/-- Default selfie description (line 393). -/
def selfieDefaultDesc : String := "looking at the camera"

/-- Default scene description (line 397). -/
def sceneDefaultDesc : String := "a scenic view from the user\x27s perspective"

/-- The in-character apology appended when no image endpoint is configured (line 412). -/
def apologyText : String := "\n\n(I tried to show you, but my visual cortex isn\x27t connected!)"

/-- JS `capture || default`: an absent or empty capture yields the default. -/
def capOrDefault (cap : Option (List Char)) (dflt : String) : String :=
  match cap with
  | some d => if d.isEmpty then dflt else ⟨d⟩
  | none => dflt

/-- The visual-prompt decision of one reply together with the updated counter. -/
structure FireDecision where
  visualPrompt : Option String
  visualType : VisualType
  newCount : Nat
deriving DecidableEq

/-- Cleaned display text plus the visual-prompt decision of one reply. -/
structure DirectiveResult where
  text : String
  visualPrompt : Option String
  visualType : VisualType
  newCount : Nat
deriving DecidableEq

/-- Lines 388-406: decide whether a directive fires and update the counter.
SELFIE always fires; SCENE fires only on a user trigger word or a counter of
at least 4; any firing resets the counter to 0, anything else increments it,
as does a disabled image-generation toggle. -/
def fireDecision (selfieMatch sceneMatch : Option (Option (List Char)))
    (aiImageGeneration : Bool) (message : String) (textOnlyMessageCount : Nat) :
    FireDecision :=
  if aiImageGeneration then
    let isUserRequestingImage := userTriggerWords.any (fun w => strContains (strLower message) w)
    match selfieMatch with
    | some cap =>
      { visualPrompt := some (capOrDefault cap selfieDefaultDesc),
        visualType := VisualType.selfie, newCount := 0 }
    | none =>
      match sceneMatch with
      | some cap =>
        if isUserRequestingImage || decide (textOnlyMessageCount ≥ 4) then
          { visualPrompt := some (capOrDefault cap sceneDefaultDesc),
            visualType := VisualType.scene, newCount := 0 }
        else
          { visualPrompt := none, visualType := VisualType.scene,
            newCount := textOnlyMessageCount + 1 }
      | none =>
        { visualPrompt := none, visualType := VisualType.scene,
          newCount := textOnlyMessageCount + 1 }
  else
    { visualPrompt := none, visualType := VisualType.scene,
      newCount := textOnlyMessageCount + 1 }

/-- Lines 382-416 of `sendMessageToEve`: match both directives, decide the
visual prompt, always strip both tag patterns from the text and trim, and
cancel the prompt (appending the apology) when no endpoint is configured. -/
def processReply (replyText : String) (message : String) (aiImageGeneration : Bool)
    (textOnlyMessageCount : Nat) (gradioEndpoint : Option String) : DirectiveResult :=
  let selfieMatch := findTag SELFIEkw replyText.data
  let sceneMatch := findTag SCENEkw replyText.data
  let d := fireDecision selfieMatch sceneMatch aiImageGeneration message textOnlyMessageCount
  let stripped : String := ⟨trimL (replaceTag SCENEkw (replaceTag SELFIEkw replyText.data))⟩
  let noEndpoint : Bool :=
    match gradioEndpoint with
    | none => true
    | some e => trimS e == ""
  if d.visualPrompt.isSome && noEndpoint then
    { text := stripped ++ apologyText, visualPrompt := none,
      visualType := d.visualType, newCount := d.newCount }
  else
    { text := stripped, visualPrompt := d.visualPrompt,
      visualType := d.visualType, newCount := d.newCount }

/-- Lines 425-434: classify the extracted error message (case-insensitive
substring patterns, quota before auth) and the user-facing message. -/
def classifyError (raw : String) : ErrorType × String :=
  let lower := strLower raw
  if strContains lower "429" || strContains lower "exhausted" || strContains lower "quota" then
    (ErrorType.QUOTA_EXCEEDED, "I\x27ve hit my usage limit for now (Quota Exceeded).")
  else if strContains lower "403" || strContains lower "key" then
    (ErrorType.AUTH_ERROR, "API key invalid.")
  else
    (ErrorType.GENERAL, "Connection interrupted.")

/-- The `EveResponse` record returned by `sendMessageToEve` (lines 320-329). -/
structure EveResponse where
  text : String
  image : Option String := none
  visualPrompt : Option String := none
  visualType : VisualType := VisualType.scene
  isError : Bool := false
  errorMessage : Option String := none
  errorType : Option ErrorType := none
  enhancedPrompt : Option String := none
deriving DecidableEq

/-- The fixed neutral-portrait fallback of the rephrasing stage (lines 251-253). -/
def fallbackPortrait : String :=
  "A photorealistic portrait of a beautiful Indian woman, neutral expression."

/-- Fixed quality suffix appended to every render prompt (line 56). -/
def IMAGE_QUALITY_SUFFIX : String := ", 8k, best quality, masterpiece"

/-- `result.replace(/^(YOUR OUTPUT|YOUR SCENE|SCENE|OUTPUT):/gi, "")`: remove
one leading instruction-echo label, case-insensitively, alternatives tried in
order (the anchor keeps the global flag from matching anywhere else). -/
def stripLabelOnce (s : String) : String :=
  let labels : List String := ["YOUR OUTPUT:", "YOUR SCENE:", "SCENE:", "OUTPUT:"]
  match labels.find? (fun lab => leadsWith (strLower lab).data (strLower s).data) with
  | some lab => ⟨s.data.drop lab.length⟩
  | none => s

/-- `rephrasePromptForGradio` (lines 241-255) given the outcome of the
one-shot text-backend call (`.error` = the call threw, `.ok none` = a
response without text).  A failed call, or a cleaned result of at most 5
characters, falls back to the fixed neutral portrait. -/
def rephrasePromptForGradio (stage1 : Except String (Option String)) : String :=
  match stage1 with
  | Except.error _ => fallbackPortrait
  | Except.ok txt =>
    let result := txt.map trimS
    let clean1 : String :=
      match result with
      | some r => (stripLabelOnce r).replace "\n" " "
      | none => ""
    let clean2 := trimS (clean1.replace "```" "")
    if clean2 ≠ "" ∧ 5 < clean2.length then clean2 else fallbackPortrait

/-- One element of the Gradio predict `data` array: an object with a `url`,
a plain string, or anything else. -/
inductive GradioItem where
  | withUrl (url : String)
  | strItem (s : String)
  | otherItem
deriving DecidableEq

/-- `generateWithGradio` (lines 267-300) given the configured endpoint and
the outcome of the network call: a missing or blank endpoint fails with the
fixed configuration message before any request; a thrown call propagates its
extracted message; a result without a url or string first item fails with
"No image URL returned.". -/
def generateWithGradio (_prompt : String) (endpoint : Option String)
    (predict : Except String (List GradioItem)) : Except String String :=
  let missing : Bool :=
    match endpoint with
    | none => true
    | some e => trimS e == ""
  if missing then Except.error "Gradio endpoint not configured."
  else
    match predict with
    | Except.error e => Except.error e
    | Except.ok data =>
      match data with
      | [] => Except.error "No image URL returned."
      | item :: _ =>
        match item with
        | GradioItem.withUrl u =>
          if u == "" then Except.error "No image URL returned." else Except.ok u
        | GradioItem.strItem s => Except.ok s
        | GradioItem.otherItem => Except.error "No image URL returned."

/-- `generateVisualSelfie` (lines 302-318): the two-stage render.  `stage1`
is the outcome of the rephrasing backend call and `predict` the outcome of
the image backend call; the result pairs the image url with the enhanced
(stage-1) prompt. -/
def generateVisualSelfie (stage1 : Except String (Option String))
    (gradioEndpoint : Option String) (predict : Except String (List GradioItem)) :
    Except String (String × String) :=
  let enhancedDescription := rephrasePromptForGradio stage1
  let fullPrompt := enhancedDescription ++ IMAGE_QUALITY_SUFFIX
  match generateWithGradio fullPrompt gradioEndpoint predict with
  | Except.ok imageUrl => Except.ok (imageUrl, enhancedDescription)
  | Except.error e => Except.error e

/-- The backend chat handle as the dispatch core observes it: the binding it
was created with and its seeded history. -/
structure ChatSession where
  apiKey : String
  language : Language
  history : List Content
deriving DecidableEq

/-- The module-level mutable state of the service (lines 44-47). -/
structure GeminiState where
  chatSession : Option ChatSession
  currentLanguage : Language
  currentApiKey : Option String
  textOnlyMessageCount : Nat
deriving DecidableEq

/-- `getApiKey` (lines 58-64): the provided key when non-blank, otherwise the
environment key (empty string when unset). -/
def getApiKey (provided : Option String) (envKey : String) : String :=
  match provided with
  | some p => if trimS p ≠ "" then p else envKey
  | none => envKey

/-- `initializeChat` (lines 135-168): rebind language and key and replace the
chat handle; `createOk = false` models the catch branch that retries with an
empty seeded history. -/
def initializeChat (st : GeminiState) (history : List Message) (apiKey : Option String)
    (envKey : String) (language : Language) (createOk : Bool) : GeminiState :=
  let key := getApiKey apiKey envKey
  { st with
    currentLanguage := language,
    currentApiKey := some key,
    chatSession := some
      { apiKey := key, language := language,
        history := if createOk then formatHistoryForGemini history else [] } }

/-- `processImageResponse` (lines 444-454) reduced to its observable result:
the concatenated text parts (with fallback) and the first inline image. -/
def processImageResponse (textParts : String) (image : Option String)
    (fallbackText : String) : String × Option String :=
  (if textParts = "" then fallbackText else textParts, image)

/-- The catch block of `sendMessageToEve` (lines 418-435): classify the
extracted message, clear the session handle and tracked key, and return an
error response. -/
def sendCatch (st : GeminiState) (e : String) : GeminiState × EveResponse :=
  let c := classifyError e
  ({ st with chatSession := none, currentApiKey := none },
   { text := c.2, isError := true, errorMessage := some e, errorType := some c.1 })

/-- `sendMessageToEve` (lines 331-437).  External calls are supplied as
oracles: `evolve` for the image-evolution call (its text and inline image),
`stage1`/`predict` for the forced selfie generation, and `chat` for
`chatSession.sendMessage`.  Returns the new module state and the response. -/
def sendMessageToEve (st : GeminiState) (message : String) (history : List Message)
    (attachmentBase64 : Option String) (forceImageGeneration : Bool)
    (apiKey : Option String) (envKey : String)
    (gradioEndpoint : Option String) (aiImageGeneration : Bool)
    (language : Language) (createOk : Bool)
    (evolve : Except String (String × Option String))
    (stage1 : Except String (Option String))
    (predict : Except String (List GradioItem))
    (chat : Except String String) : GeminiState × EveResponse :=
  let key := getApiKey apiKey envKey
  let st1 :=
    if st.chatSession = none ∨ st.currentLanguage ≠ language ∨ st.currentApiKey ≠ some key then
      initializeChat st history apiKey envKey language createOk
    else st
  if attachmentBase64.isSome ∧ forceImageGeneration then
    match evolve with
    | Except.ok r =>
      let pr := processImageResponse r.1 r.2 "I\x27ve evolved the visual."
      ({ st1 with textOnlyMessageCount := 0 }, { text := pr.1, image := pr.2 })
    | Except.error e => sendCatch st1 e
  else if attachmentBase64 = none ∧ forceImageGeneration then
    let enhancedPart := rephrasePromptForGradio stage1
    let generationPrompt := enhancedPart ++ IMAGE_QUALITY_SUFFIX
    match generateWithGradio generationPrompt gradioEndpoint predict with
    | Except.ok imageUrl =>
      ({ st1 with textOnlyMessageCount := 0 },
       { text := "Here is what I visualized.", image := some imageUrl,
         enhancedPrompt := some enhancedPart })
    | Except.error e => sendCatch st1 e
  else
    let st2 :=
      if st1.chatSession = none then initializeChat st1 [] apiKey envKey language createOk
      else st1
    match chat with
    | Except.error e => sendCatch st2 e
    | Except.ok replyText =>
      let r := processReply replyText message aiImageGeneration st2.textOnlyMessageCount gradioEndpoint
      ({ st2 with textOnlyMessageCount := r.newCount },
       { text := r.text, visualPrompt := r.visualPrompt, visualType := r.visualType })

/-- Outcome of `processMessageSending` as observed through the message list:
a response appended (success, non-quota error, or single-key quota error),
the in-loop exhaustion message ("All available API keys have exceeded their
quota.", App.tsx line 255), or the post-loop exhaustion message (line 304). -/
inductive DispatchOutcome where
  | appendedResponse (resp : EveResponse)
  | exhaustedEarly
  | exhaustedPostLoop
  | outOfFuel
deriving DecidableEq

/-- The `while` loop of `processMessageSending` (App.tsx lines 238-305),
with `send` the response of `sendMessageToEve` as a function of the key used
(`none` = no matching credential, so an undefined key).  Returns the number
of send attempts performed and the loop outcome.  `fuel` only bounds the
recursion; `processMessageSending` supplies enough for `outOfFuel` to be
unreachable. -/
def dispatchGo (apiKeys : List ApiKeyDef) (send : Option String → EveResponse)
    (initialKeyId : Option String) : Option String → Nat → Nat → Nat × DispatchOutcome
  | _, _, 0 => (0, DispatchOutcome.outOfFuel)
  | keyIdToTry, attempts, fuel + 1 =>
    let totalKeys := if 0 < apiKeys.length then apiKeys.length else 1
    if attempts < totalKeys then
      let activeKeyDef := apiKeys.find? (idMatches keyIdToTry)
      let response := send (activeKeyDef.map ApiKeyDef.key)
      if response.isError ∧ response.errorType = some ErrorType.QUOTA_EXCEEDED ∧ 1 < apiKeys.length then
        let currentIndex := jsFindIndex (idMatches keyIdToTry) apiKeys
        let nextIndex := (match currentIndex with | some i => i + 1 | none => 0) % apiKeys.length
        let nextKey := apiKeys.getD nextIndex { id := "", label := "", key := "" }
        if some nextKey.id = initialKeyId ∧ 0 < attempts then
          (1, DispatchOutcome.exhaustedEarly)
        else
          let r := dispatchGo apiKeys send initialKeyId (some nextKey.id) (attempts + 1) fuel
          (r.1 + 1, r.2)
      else
        (1, DispatchOutcome.appendedResponse response)
    else
      (0, DispatchOutcome.exhaustedPostLoop)

/-- `processMessageSending` (App.tsx lines 228-306): run the rotation loop
starting from the initial credential with `attempts = 0`. -/
def processMessageSending (apiKeys : List ApiKeyDef) (send : Option String → EveResponse)
    (initialKeyId : Option String) : Nat × DispatchOutcome :=
  let totalKeys := if 0 < apiKeys.length then apiKeys.length else 1
  dispatchGo apiKeys send initialKeyId initialKeyId 0 (totalKeys + 1)

/-- Success completion handler of the detached render (App.tsx line 286):
patch the message with the captured id in place, setting its image and
clearing its loading flag. -/
def patchMessage (msgs : List Message) (messageId : String) (imageUrl : String) : List Message :=
  msgs.map (fun m =>
    if m.id = messageId then { m with image := some imageUrl, isImageLoading := false } else m)

/-- Spec-side (claim C5): maximal runs of adjacent same-role turns. -/
def runsBy : List Content → List (List Content)
  | [] => []
  | [c] => [[c]]
  | c :: c2 :: rest =>
    match runsBy (c2 :: rest) with
    | [] => [[c]]
    | r :: rs => if c.role = c2.role then (c :: r) :: rs else [c] :: r :: rs

/-- Spec-side (claim C5): each run of same-role turns becomes exactly one
turn whose parts are the concatenation, in original order, of the run parts. -/
def mergeRunsSpec (l : List Content) : List Content :=
  (runsBy l).map (fun run =>
    match run with
    | [] => { role := Role.user, parts := [] }
    | c :: cs => { role := c.role, parts := ((c :: cs).map Content.parts).flatten })

/-- Spec-side (claim C6, §4.4 grammar): a reply fragment — plain text or one
complete directive tag with an optional free-form description. -/
inductive Piece where
  | plain (s : List Char)
  | tag (t : VisualType) (desc : Option (List Char))
deriving DecidableEq

/-- Keyword of a directive kind. -/
def kwOf : VisualType → List Char
  | VisualType.selfie => SELFIEkw
  | VisualType.scene => SCENEkw

/-- Concrete text of a reply fragment. -/
def renderPiece : Piece → List Char
  | Piece.plain s => s
  | Piece.tag t none => '[' :: (kwOf t ++ [']'])
  | Piece.tag t (some d) => '[' :: (kwOf t ++ ':' :: (d ++ [']']))

/-- Concrete text of a whole reply. -/
def renderPieces (ps : List Piece) : List Char :=
  (ps.map renderPiece).flatten

/-- Well-formedness of a reply fragment: plain text contains no `[`;
descriptions contain no brackets and no line terminators. -/
def goodPiece : Piece → Bool
  | Piece.plain s => !s.contains '['
  | Piece.tag _ none => true
  | Piece.tag _ (some d) => !d.contains '[' && !d.contains ']' && d.all dotChar

/-- The fragment is not a directive tag of the given kind. -/
def notTagOf (t : VisualType) : Piece → Bool
  | Piece.tag u _ => decide (u ≠ t)
  | Piece.plain _ => true

/-- Spec-side (claim C1): the loop outcome is one of the two terminal
exhaustion messages. -/
def appendsExhaustionMessage : DispatchOutcome → Bool
  | DispatchOutcome.exhaustedEarly => true
  | DispatchOutcome.exhaustedPostLoop => true
  | _ => false

/-- Spec-side (claim C4): the quota pattern of §4.3 — the extracted message,
lowered, contains "429", "exhausted" or "quota". -/
def quotaPat (raw : String) : Bool :=
  strContains (strLower raw) "429" || strContains (strLower raw) "exhausted" ||
    strContains (strLower raw) "quota"

/-- Spec-side (claim C4): the auth pattern of §4.3 — the extracted message,
lowered, contains "403" or "key". -/
def authPat (raw : String) : Bool :=
  strContains (strLower raw) "403" || strContains (strLower raw) "key"

/-- The response `sendMessageToEve` returns for a quota failure. -/
def quotaResponse : EveResponse :=
  { text := "I\x27ve hit my usage limit for now (Quota Exceeded).",
    isError := true,
    errorType := some ErrorType.QUOTA_EXCEEDED }

/-- C4: for every raw error of a backend send, the classified kind is
QUOTA_EXCEEDED iff the extracted message, lowered, contains "429",
"exhausted" or "quota"; otherwise AUTH_ERROR iff it contains "403" or "key";
otherwise GENERAL — the quota patterns take priority over the auth patterns. -/
theorem C4_error_classification (raw : String) :
    ((classifyError raw).1 = ErrorType.QUOTA_EXCEEDED ↔ quotaPat raw = true) ∧
    ((classifyError raw).1 = ErrorType.AUTH_ERROR ↔ (quotaPat raw = false ∧ authPat raw = true)) ∧
    ((classifyError raw).1 = ErrorType.GENERAL ↔ (quotaPat raw = false ∧ authPat raw = false)) := by
  unfold classifyError quotaPat authPat
  cases hq : (strContains (strLower raw) "429" || strContains (strLower raw) "exhausted" ||
      strContains (strLower raw) "quota") <;>
    cases ha : (strContains (strLower raw) "403" || strContains (strLower raw) "key") <;>
      simp [hq, ha]

/-- C4 witness: the classification of a concrete quota-style message. -/
theorem C4_error_classification_witness :
    (Eve.classifyError "Error 429: RESOURCE_EXHAUSTED").1 = ErrorType.QUOTA_EXCEEDED :=
  (C4_error_classification "Error 429: RESOURCE_EXHAUSTED").1.mpr (by decide)

/-- C9: the detached-render completion handler patches exactly the messages
whose id equals the captured id, changing only their image and image-loading
fields; every other message is unchanged, and when no message carries the id
the list is unchanged. -/
theorem C9_patch_frame (msgs : List Message) (messageId imageUrl : String) :
    (patchMessage msgs messageId imageUrl).length = msgs.length ∧
    (∀ (i : Nat) (h1 : i < msgs.length) (h2 : i < (patchMessage msgs messageId imageUrl).length),
      ((msgs.get ⟨i, h1⟩).id ≠ messageId →
        (patchMessage msgs messageId imageUrl).get ⟨i, h2⟩ = msgs.get ⟨i, h1⟩) ∧
      ((msgs.get ⟨i, h1⟩).id = messageId →
        (patchMessage msgs messageId imageUrl).get ⟨i, h2⟩ =
          { msgs.get ⟨i, h1⟩ with image := some imageUrl, isImageLoading := false })) ∧
    ((∀ m ∈ msgs, m.id ≠ messageId) → patchMessage msgs messageId imageUrl = msgs) := by
  refine ⟨by simp [patchMessage], ?_, ?_⟩
  · intro i h1 h2
    simp only [List.get_eq_getElem]
    constructor
    · intro hne
      simp only [patchMessage, List.getElem_map]
      rw [if_neg hne]
    · intro heq
      simp only [patchMessage, List.getElem_map]
      rw [if_pos heq]
  · intro h
    have h2 : ∀ m ∈ msgs,
        (if m.id = messageId then { m with image := some imageUrl, isImageLoading := false } else m) = m := by
      intro m hm
      simp [h m hm]
    calc patchMessage msgs messageId imageUrl
        = msgs.map id := List.map_congr_left h2
      _ = msgs := List.map_id msgs

/-- C9 witness: patching a list that does not contain the id leaves it unchanged. -/
theorem C9_patch_frame_witness :
    patchMessage [Message.mk "m1" Role.user "hi" none false false] "other" "u" =
      [Message.mk "m1" Role.user "hi" none false false] :=
  (C9_patch_frame _ "other" "u").2.2 (by decide)

/-- C7 counterexample: when the stage-1 rephrasing call fails but the
stage-2 image call succeeds, the whole render call returns an image
reference (with the fallback prompt) instead of failing. -/
theorem C7_counterexample_stage1_swallowed :
    generateVisualSelfie (Except.error "rephrase backend unreachable")
        (some "https://gradio.example") (Except.ok [GradioItem.withUrl "https://img.example/1.png"]) =
      Except.ok ("https://img.example/1.png", fallbackPortrait) := by
  rfl

/-- C7 (amended): a stage-2 failure (including a missing endpoint) fails the
whole render call with the classified message, while a stage-1 failure is
swallowed — the fixed neutral-portrait fallback is used as the enhanced
prompt and rendering proceeds. -/
theorem C7_stage_failures :
    (∀ (stage1 : Except String (Option String)) (endpoint : Option String)
        (predict : Except String (List GradioItem)) (e : String),
      generateWithGradio (rephrasePromptForGradio stage1 ++ IMAGE_QUALITY_SUFFIX) endpoint predict =
          Except.error e →
      generateVisualSelfie stage1 endpoint predict = Except.error e) ∧
    (∀ (m : String) (endpoint : Option String) (predict : Except String (List GradioItem))
        (u : String),
      generateWithGradio (fallbackPortrait ++ IMAGE_QUALITY_SUFFIX) endpoint predict = Except.ok u →
      generateVisualSelfie (Except.error m) endpoint predict = Except.ok (u, fallbackPortrait)) := by
  constructor
  · intro stage1 endpoint predict e h
    simp only [generateVisualSelfie]
    rw [h]
  · intro m endpoint predict u h
    simp only [generateVisualSelfie]
    have hre : rephrasePromptForGradio (Except.error m) = fallbackPortrait := rfl
    rw [hre, h]

/-- C7 witness: a missing endpoint fails the whole call, and a stage-1 error
with a succeeding stage 2 yields the fallback-prompt image result. -/
theorem C7_stage_failures_witness :
    generateVisualSelfie (Except.ok (some "pose")) none (Except.error "net down") =
      Except.error "Gradio endpoint not configured." ∧
    generateVisualSelfie (Except.error "boom") (some "https://g.example")
        (Except.ok [GradioItem.strItem "img-bytes"]) = Except.ok ("img-bytes", fallbackPortrait) :=
  ⟨C7_stage_failures.1 (Except.ok (some "pose")) none (Except.error "net down") _ rfl,
   C7_stage_failures.2 "boom" (some "https://g.example") (Except.ok [GradioItem.strItem "img-bytes"])
     "img-bytes" rfl⟩

/-- C3 counterexample: the turn counter starts at 4 (not 0), so from a fresh
state a SCENE directive without any user trigger word fires immediately,
with zero preceding text-only replies. -/
theorem C3_counterexample_fresh_state :
    textOnlyMessageCountInit = 4 ∧
    userTriggerWords.any (fun w => strContains (strLower "hello") w) = false ∧
    (processReply "[SCENE]" "hello" true textOnlyMessageCountInit
        (some "https://gradio.example")).visualPrompt = some sceneDefaultDesc := by
  refine ⟨rfl, by decide, by decide⟩

/-- Both branches of the endpoint check preserve the updated counter. -/
theorem processReply_newCount (reply msg : String) (ai : Bool) (count : Nat)
    (ep : Option String) :
    (processReply reply msg ai count ep).newCount =
      (fireDecision (findTag SELFIEkw reply.data) (findTag SCENEkw reply.data)
        ai msg count).newCount := by
  simp only [processReply]
  split <;> rfl

/-- Both branches of the endpoint check preserve the visual type. -/
theorem processReply_visualType (reply msg : String) (ai : Bool) (count : Nat)
    (ep : Option String) :
    (processReply reply msg ai count ep).visualType =
      (fireDecision (findTag SELFIEkw reply.data) (findTag SCENEkw reply.data)
        ai msg count).visualType := by
  simp only [processReply]
  split <;> rfl

/-- With a configured, non-blank endpoint the visual prompt of the decision
is returned unchanged. -/
theorem processReply_visualPrompt_goodEndpoint (reply msg : String) (ai : Bool) (count : Nat)
    (e : String) (he : trimS e ≠ "") :
    (processReply reply msg ai count (some e)).visualPrompt =
      (fireDecision (findTag SELFIEkw reply.data) (findTag SCENEkw reply.data)
        ai msg count).visualPrompt := by
  have hbeq : (trimS e == "") = false := by simp [he]
  simp only [processReply, hbeq]
  simp

/-- When the decision produced no visual prompt, none is returned. -/
theorem processReply_visualPrompt_none (reply msg : String) (ai : Bool) (count : Nat)
    (ep : Option String)
    (h : (fireDecision (findTag SELFIEkw reply.data) (findTag SCENEkw reply.data)
        ai msg count).visualPrompt = none) :
    (processReply reply msg ai count ep).visualPrompt = none := by
  simp only [processReply, h]
  simp

/-- C3 (amended): with image generation enabled, a SELFIE directive resets
the counter to 0; a SCENE directive without a trigger word does not fire
below a counter of 4 and increments the counter, fires and resets to 0 at 4
or above; a reply without directives increments the counter.  (The counter
starts at 4, so a fresh state fires immediately; only after a reset are four
text-only replies required.) -/
theorem C3_turn_counter :
    (∀ (reply msg : String) (count : Nat) (ep : Option String) (cap : Option (List Char)),
      findTag SELFIEkw reply.data = some cap →
      (processReply reply msg true count ep).newCount = 0) ∧
    (∀ (reply msg : String) (count : Nat) (ep : Option String) (cap : Option (List Char)),
      findTag SELFIEkw reply.data = none →
      findTag SCENEkw reply.data = some cap →
      userTriggerWords.any (fun w => strContains (strLower msg) w) = false →
      count < 4 →
      (processReply reply msg true count ep).visualPrompt = none ∧
      (processReply reply msg true count ep).newCount = count + 1) ∧
    (∀ (reply msg : String) (count : Nat) (e : String) (cap : Option (List Char)),
      findTag SELFIEkw reply.data = none →
      findTag SCENEkw reply.data = some cap →
      userTriggerWords.any (fun w => strContains (strLower msg) w) = false →
      4 ≤ count → trimS e ≠ "" →
      (processReply reply msg true count (some e)).visualPrompt =
        some (capOrDefault cap sceneDefaultDesc) ∧
      (processReply reply msg true count (some e)).newCount = 0) ∧
    (∀ (reply msg : String) (count : Nat) (ep : Option String),
      findTag SELFIEkw reply.data = none →
      findTag SCENEkw reply.data = none →
      (processReply reply msg true count ep).newCount = count + 1) := by
  refine ⟨?_, ?_, ?_, ?_⟩
  · intro reply msg count ep cap h
    rw [processReply_newCount]
    simp [fireDecision, h]
  · intro reply msg count ep cap h1 h2 htrig hcount
    have hd : decide (count ≥ 4) = false := by simp; omega
    have hfd : (fireDecision (findTag SELFIEkw reply.data) (findTag SCENEkw reply.data)
        true msg count) = FireDecision.mk none VisualType.scene (count + 1) := by
      simp [fireDecision, h1, h2, htrig, hd]
    exact ⟨processReply_visualPrompt_none _ _ _ _ _ (by rw [hfd]),
      by rw [processReply_newCount, hfd]⟩
  · intro reply msg count e cap h1 h2 htrig hcount hep
    have hd : decide (count ≥ 4) = true := by simpa using hcount
    have hfd : (fireDecision (findTag SELFIEkw reply.data) (findTag SCENEkw reply.data)
        true msg count) = FireDecision.mk (some (capOrDefault cap sceneDefaultDesc))
          VisualType.scene 0 := by
      simp [fireDecision, h1, h2, htrig, hd]
    exact ⟨by rw [processReply_visualPrompt_goodEndpoint _ _ _ _ _ hep, hfd],
      by rw [processReply_newCount, hfd]⟩
  · intro reply msg count ep h1 h2
    rw [processReply_newCount]
    simp [fireDecision, h1, h2]

/-- C3 witness: after a reset, a trigger-free SCENE reply below the
threshold does not fire and counts up; at the threshold it fires. -/
theorem C3_turn_counter_witness :
    (processReply "[SCENE]" "hello" true 3 (some "https://g.example")).visualPrompt = none ∧
    (processReply "[SCENE]" "hello" true 3 (some "https://g.example")).newCount = 4 ∧
    (processReply "[SCENE]" "hello" true 4 (some "https://g.example")).visualPrompt =
      some sceneDefaultDesc ∧
    (processReply "[SELFIE: hi]" "hello" true 2 (some "https://g.example")).newCount = 0 := by
  refine ⟨(C3_turn_counter.2.1 "[SCENE]" "hello" 3 (some "https://g.example") none (by decide)
      (by decide) (by decide) (by decide)).1,
    (C3_turn_counter.2.1 "[SCENE]" "hello" 3 (some "https://g.example") none (by decide)
      (by decide) (by decide) (by decide)).2,
    ?_, ?_⟩
  · have := (C3_turn_counter.2.2.1 "[SCENE]" "hello" 4 "https://g.example" none (by decide)
      (by decide) (by decide) (by decide) (by decide)).1
    simpa using this
  · exact C3_turn_counter.1 "[SELFIE: hi]" "hello" 2 (some "https://g.example")
      (some "hi".data) (by decide)

/-- C8: the attachment mime regex accepts any mime type, but the payload
strip only handles `image/` plus word characters, so a
`data:image/svg+xml;base64,AAAA` attachment is emitted with the whole data
URL as its payload (corrupted), while `data:image/png;base64,AAAA`
round-trips exactly. -/
theorem C8_attachment_payload :
    formatHistoryForGemini [Message.mk "1" Role.user "" (some "data:image/svg+xml;base64,AAAA") false false] =
      [{ role := Role.user,
         parts := [Part.inlineData "image/svg+xml" "data:image/svg+xml;base64,AAAA"] }] ∧
    ("data:image/svg+xml;base64,AAAA" : String) ≠ "AAAA" ∧
    formatHistoryForGemini [Message.mk "2" Role.user "" (some "data:image/png;base64,AAAA") false false] =
      [{ role := Role.user, parts := [Part.inlineData "image/png" "AAAA"] }] := by
  refine ⟨by decide, by decide, by decide⟩

/-- C6 counterexample: the reply `[SELFIE[SELFIE]]` still contains the
directive tag `[SELFIE]` after stripping — the single-pass replace removes
the inner tag and the remaining characters form a new one. -/
theorem C6_counterexample_nested_tag :
    containsTag (processReply "[SELFIE[SELFIE]]" "hi" false 0
        (some "https://gradio.example")).text.data = true ∧
    (processReply "[SELFIE[SELFIE]]" "hi" false 0 (some "https://gradio.example")).text =
      "[SELFIE]" := by
  exact ⟨by decide, by decide⟩

/-- C1 counterexample: with a single configured credential failing with a
quota error, the loop performs one attempt and appends the single-credential
quota error response — not a terminal exhaustion message. -/
theorem C1_counterexample_single_key :
    processMessageSending [ApiKeyDef.mk "k1" "Key 1" "secret1"] (fun _ => quotaResponse)
        (some "k1") = (1, DispatchOutcome.appendedResponse quotaResponse) ∧
    appendsExhaustionMessage (processMessageSending [ApiKeyDef.mk "k1" "Key 1" "secret1"]
        (fun _ => quotaResponse) (some "k1")).2 = false := by
  exact ⟨by decide, by decide⟩

/-- `jsFindIndex` locates the index of a credential by its id when ids are
unique. -/
theorem jsFindIndex_get_of_nodup :
    ∀ (l : List ApiKeyDef), (l.map ApiKeyDef.id).Nodup →
    ∀ (p : Nat) (hp : p < l.length),
      jsFindIndex (idMatches (some (l.get ⟨p, hp⟩).id)) l = some p := by
  intro l
  induction l with
  | nil => intro _ p hp; simp at hp
  | cons a t ih =>
    intro hnd p hp
    have hnd2 : (∀ x ∈ t, ¬x.id = a.id) ∧ (t.map ApiKeyDef.id).Nodup := by
      simpa using hnd
    match p with
    | 0 => simp [jsFindIndex, idMatches]
    | Nat.succ q =>
      have hq : q < t.length := by simpa using hp
      have hne : a.id ≠ (t.get ⟨q, hq⟩).id := fun he =>
        hnd2.1 (t.get ⟨q, hq⟩) (t.get_mem q hq) he.symm
      have hgs : (a :: t).get ⟨q + 1, hp⟩ = t.get ⟨q, hq⟩ := rfl
      rw [hgs]
      simp only [jsFindIndex, idMatches]
      rw [if_neg (by simpa using hne)]
      rw [ih hnd2.2 q hq]
      rfl

/-- When credential ids are unique, equal ids force equal indices. -/
theorem id_get_inj (l : List ApiKeyDef) (hnd : (l.map ApiKeyDef.id).Nodup)
    (p q : Nat) (hp : p < l.length) (hq : q < l.length)
    (h : (l.get ⟨p, hp⟩).id = (l.get ⟨q, hq⟩).id) : p = q := by
  have hp2 : p < (l.map ApiKeyDef.id).length := by simpa using hp
  have hq2 : q < (l.map ApiKeyDef.id).length := by simpa using hq
  have h1 : (l.map ApiKeyDef.id).get ⟨p, hp2⟩ = (l.map ApiKeyDef.id).get ⟨q, hq2⟩ := by
    simpa using h
  have := (List.Nodup.get_inj_iff hnd).mp h1
  simpa using congrArg Fin.val this

/-- Adding a positive offset below the modulus moves an index strictly. -/
theorem addModNe (i b N : Nat) (hi : i < N) (hb0 : 0 < b) (hbN : b < N) :
    (i + b) % N ≠ i := by
  intro h
  rcases Nat.lt_or_ge (i + b) N with hlt | hge
  · rw [Nat.mod_eq_of_lt hlt] at h
    omega
  · have h2 : i + b - N < N := by omega
    rw [Nat.mod_eq_sub_mod hge, Nat.mod_eq_of_lt h2] at h
    omega

/-- Rotation invariant: with at least two credentials with unique ids, all
sends failing with quota, starting at rotation offset `j` from the initial
index `i` with `r` keys left to try, the loop performs exactly `r` further
attempts and ends in the in-loop exhaustion message. -/
theorem dispatchGo_all_quota (apiKeys : List ApiKeyDef) (send : Option String → EveResponse)
    (hnd : (apiKeys.map ApiKeyDef.id).Nodup) (hlen : 2 ≤ apiKeys.length)
    (hq : ∀ k, (send k).isError = true ∧ (send k).errorType = some ErrorType.QUOTA_EXCEEDED)
    (i : Nat) (hi : i < apiKeys.length) :
    ∀ (r : Nat), 1 ≤ r → ∀ (j fuel : Nat), r + j = apiKeys.length → r ≤ fuel →
    ∀ (hp : (i + j) % apiKeys.length < apiKeys.length),
    dispatchGo apiKeys send (some (apiKeys.get ⟨i, hi⟩).id)
      (some (apiKeys.get ⟨(i + j) % apiKeys.length, hp⟩).id) j fuel =
      (r, DispatchOutcome.exhaustedEarly) := by
  intro r
  induction r with
  | zero => intro hr; omega
  | succ r' ih =>
    intro _ j fuel hrj hfuel hp
    obtain ⟨f, rfl⟩ : ∃ f, fuel = f + 1 := ⟨fuel - 1, by omega⟩
    have hN : 0 < apiKeys.length := by omega
    have hjN : j < apiKeys.length := by omega
    have hidx := jsFindIndex_get_of_nodup apiKeys hnd ((i + j) % apiKeys.length) hp
    have hmod : ((i + j) % apiKeys.length + 1) % apiKeys.length =
        (i + j + 1) % apiKeys.length := by
      rw [Nat.mod_add_mod]
    have hp1 : (i + j + 1) % apiKeys.length < apiKeys.length := Nat.mod_lt _ hN
    have hgetD : apiKeys.getD ((i + j + 1) % apiKeys.length) (ApiKeyDef.mk "" "" "") =
        apiKeys.get ⟨(i + j + 1) % apiKeys.length, hp1⟩ := by
      simp [List.getD, List.getElem?_eq_getElem hp1, List.get_eq_getElem]
    simp only [dispatchGo, if_pos hN]
    rw [if_pos (by omega : j < apiKeys.length)]
    rw [if_pos ⟨(hq _).1, (hq _).2, by omega⟩]
    rw [hidx]
    simp only [hmod, hgetD]
    by_cases hr0 : r' = 0
    · subst hr0
      have hj1 : i + j + 1 = i + apiKeys.length := by omega
      have hii : (i + j + 1) % apiKeys.length = i := by
        rw [hj1, Nat.add_mod_right, Nat.mod_eq_of_lt hi]
      have hgi : apiKeys.get ⟨(i + j + 1) % apiKeys.length, hp1⟩ = apiKeys.get ⟨i, hi⟩ := by
        congr 1
        exact Fin.ext hii
      rw [if_pos ⟨by rw [hgi], by omega⟩]
    · have hne : (i + j + 1) % apiKeys.length ≠ i := by
        have : (i + (j + 1)) % apiKeys.length ≠ i :=
          addModNe i (j + 1) apiKeys.length hi (by omega) (by omega)
        simpa [Nat.add_assoc] using this
      have hne2 : (apiKeys.get ⟨(i + j + 1) % apiKeys.length, hp1⟩).id ≠
          (apiKeys.get ⟨i, hi⟩).id := fun he =>
        hne (id_get_inj apiKeys hnd _ _ hp1 hi he)
      rw [if_neg (by rintro ⟨ha, -⟩; exact hne2 (Option.some.inj ha))]
      have hp2 : (i + (j + 1)) % apiKeys.length < apiKeys.length := Nat.mod_lt _ hN
      have hgarg : apiKeys.get ⟨(i + j + 1) % apiKeys.length, hp1⟩ =
          apiKeys.get ⟨(i + (j + 1)) % apiKeys.length, hp2⟩ := rfl
      rw [hgarg, ih (by omega) (j + 1) f (by omega) (by omega) hp2]

/-- C1 (amended): with at least two configured credentials (unique ids) and
every attempt failing with QUOTA_EXCEEDED, the dispatch loop performs
exactly N attempts and appends the terminal exhaustion message; a non-quota
classification (GENERAL or AUTH_ERROR) on the first attempt ends the loop
after exactly 1 attempt with that response appended, without rotating.
(With a single credential the quota response itself is appended instead of
an exhaustion message — see the counterexample.) -/
theorem C1_rotation :
    (∀ (apiKeys : List ApiKeyDef) (send : Option String → EveResponse) (i : Nat)
        (hi : i < apiKeys.length),
      2 ≤ apiKeys.length →
      (apiKeys.map ApiKeyDef.id).Nodup →
      (∀ k, (send k).isError = true ∧ (send k).errorType = some ErrorType.QUOTA_EXCEEDED) →
      processMessageSending apiKeys send (some (apiKeys.get ⟨i, hi⟩).id) =
        (apiKeys.length, DispatchOutcome.exhaustedEarly)) ∧
    (∀ (apiKeys : List ApiKeyDef) (send : Option String → EveResponse)
        (initialKeyId : Option String),
      (send ((apiKeys.find? (idMatches initialKeyId)).map ApiKeyDef.key)).isError = true →
      ((send ((apiKeys.find? (idMatches initialKeyId)).map ApiKeyDef.key)).errorType =
          some ErrorType.GENERAL ∨
        (send ((apiKeys.find? (idMatches initialKeyId)).map ApiKeyDef.key)).errorType =
          some ErrorType.AUTH_ERROR) →
      processMessageSending apiKeys send initialKeyId =
        (1, DispatchOutcome.appendedResponse
          (send ((apiKeys.find? (idMatches initialKeyId)).map ApiKeyDef.key)))) := by
  constructor
  · intro apiKeys send i hi hlen hnd hq
    have hN : 0 < apiKeys.length := by omega
    have hp : (i + 0) % apiKeys.length < apiKeys.length := Nat.mod_lt _ hN
    have h := dispatchGo_all_quota apiKeys send hnd hlen hq i hi apiKeys.length
      (by omega) 0 (apiKeys.length + 1) (by omega) (by omega) hp
    have hg : apiKeys.get ⟨(i + 0) % apiKeys.length, hp⟩ = apiKeys.get ⟨i, hi⟩ := by
      congr 1
      exact Fin.ext (by simp [Nat.mod_eq_of_lt hi])
    rw [hg] at h
    simpa [processMessageSending, if_pos hN] using h
  · intro apiKeys send initialKeyId herr htype
    have ht : (0:Nat) < if 0 < apiKeys.length then apiKeys.length else 1 := by
      split <;> omega
    have hcond : ¬((send ((apiKeys.find? (idMatches initialKeyId)).map ApiKeyDef.key)).isError = true ∧
        (send ((apiKeys.find? (idMatches initialKeyId)).map ApiKeyDef.key)).errorType =
          some ErrorType.QUOTA_EXCEEDED ∧ 1 < apiKeys.length) := by
      rintro ⟨-, hq2, -⟩
      rcases htype with h | h <;> rw [h] at hq2 <;> simp at hq2
    simp only [processMessageSending, dispatchGo]
    rw [if_pos ht, if_neg hcond]

/-- C1 witness: two all-quota credentials give 2 attempts then exhaustion;
a first-attempt general error gives 1 attempt with the response appended. -/
theorem C1_rotation_witness :
    processMessageSending [ApiKeyDef.mk "a" "A" "ka", ApiKeyDef.mk "b" "B" "kb"]
        (fun _ => quotaResponse) (some "a") = (2, DispatchOutcome.exhaustedEarly) ∧
    processMessageSending [ApiKeyDef.mk "a" "A" "ka", ApiKeyDef.mk "b" "B" "kb"]
        (fun _ => EveResponse.mk "Connection interrupted." none none VisualType.scene true
          (some "boom") (some ErrorType.GENERAL) none) (some "a") =
      (1, DispatchOutcome.appendedResponse
        (EveResponse.mk "Connection interrupted." none none VisualType.scene true
          (some "boom") (some ErrorType.GENERAL) none)) := by
  constructor
  · exact C1_rotation.1 [ApiKeyDef.mk "a" "A" "ka", ApiKeyDef.mk "b" "B" "kb"]
      (fun _ => quotaResponse) 0 (by decide) (by decide) (by decide)
      (fun _ => ⟨rfl, rfl⟩)
  · exact C1_rotation.2 [ApiKeyDef.mk "a" "A" "ka", ApiKeyDef.mk "b" "B" "kb"]
      (fun _ => EveResponse.mk "Connection interrupted." none none VisualType.scene true
        (some "boom") (some ErrorType.GENERAL) none) (some "a") rfl (Or.inl rfl)

/-- `runsBy` never returns an empty decomposition for a non-empty list. -/
theorem runsBy_cons_ne_nil (c : Content) (rest : List Content) : runsBy (c :: rest) ≠ [] := by
  cases rest with
  | nil => simp [runsBy]
  | cons c2 t =>
    cases h : runsBy (c2 :: t) with
    | nil => simp [runsBy, h]
    | cons r rs =>
      simp only [runsBy, h]
      split <;> simp

/-- Merging the head of a run into the accumulator does not change the
run decomposition result. -/
theorem mergeRunsSpec_merge_head (cur c : Content) (rest : List Content)
    (h : c.role = cur.role) :
    mergeRunsSpec (Content.mk cur.role (cur.parts ++ c.parts) :: rest) =
      mergeRunsSpec (cur :: c :: rest) := by
  cases rest with
  | nil => simp [mergeRunsSpec, runsBy, h.symm]
  | cons c3 rest2 =>
    cases hrb : runsBy (c3 :: rest2) with
    | nil => exact absurd hrb (runsBy_cons_ne_nil c3 rest2)
    | cons r rs =>
      by_cases hcc : c.role = c3.role
      · have hcc2 : cur.role = c3.role := h ▸ hcc
        simp [mergeRunsSpec, runsBy, hrb, h.symm, hcc, hcc2]
      · have hcc2 : ¬cur.role = c3.role := fun he => hcc (h.symm ▸ he)
        simp [mergeRunsSpec, runsBy, hrb, h.symm, hcc, hcc2]

/-- The merge loop computes exactly the run decomposition merge. -/
theorem mergeRunsGo_eq_spec : ∀ (l : List Content) (cur : Content),
    mergeRunsGo cur l = mergeRunsSpec (cur :: l) := by
  intro l
  induction l with
  | nil =>
    intro cur
    simp [mergeRunsGo, mergeRunsSpec, runsBy]
  | cons c rest ih =>
    intro cur
    by_cases h : c.role = cur.role
    · rw [mergeRunsGo, if_pos h, ih, mergeRunsSpec_merge_head cur c rest h]
    · rw [mergeRunsGo, if_neg h, ih]
      cases hrb : runsBy (c :: rest) with
      | nil => exact absurd hrb (runsBy_cons_ne_nil c rest)
      | cons r rs =>
        have h2 : ¬cur.role = c.role := fun he => h he.symm
        simp [mergeRunsSpec, runsBy, hrb, h2]

/-- C5: normalization merges each run of adjacent same-role turns into
exactly one turn whose parts are the concatenation, in original order, of
the run parts; and the example [user "hi", user "there", model "hello"]
normalizes to one merged user turn carrying "hi" and "there" followed by
one model turn carrying "hello". -/
theorem C5_merge_runs :
    (∀ l : List Content, mergeRuns l = mergeRunsSpec l) ∧
    formatHistoryForGemini
        [Message.mk "1" Role.user "hi" none false false,
         Message.mk "2" Role.user "there" none false false,
         Message.mk "3" Role.model "hello" none false false] =
      [Content.mk Role.user [Part.text "hi", Part.text "there"],
       Content.mk Role.model [Part.text "hello"]] := by
  constructor
  · intro l
    cases l with
    | nil => rfl
    | cons c rest => exact mergeRunsGo_eq_spec rest c
  · decide

/-- The first merged turn keeps the role of the accumulator. -/
theorem mergeRunsGo_head_role : ∀ (l : List Content) (cur : Content),
    (mergeRunsGo cur l).head?.map Content.role = some cur.role := by
  intro l
  induction l with
  | nil => intro cur; simp [mergeRunsGo]
  | cons c rest ih =>
    intro cur
    by_cases h : c.role = cur.role
    · rw [mergeRunsGo, if_pos h]
      exact ih _
    · rw [mergeRunsGo, if_neg h]
      simp

/-- The merge loop produces no two adjacent same-role turns. -/
theorem mergeRunsGo_chain : ∀ (l : List Content) (cur : Content),
    List.Chain' (fun a b => a.role ≠ b.role) (mergeRunsGo cur l) := by
  intro l
  induction l with
  | nil => intro cur; simp [mergeRunsGo]
  | cons c rest ih =>
    intro cur
    by_cases h : c.role = cur.role
    · rw [mergeRunsGo, if_pos h]
      exact ih _
    · rw [mergeRunsGo, if_neg h]
      rw [List.chain'_cons']
      refine ⟨?_, ih c⟩
      intro y hy
      have hh := mergeRunsGo_head_role rest c
      have hsome : (mergeRunsGo c rest).head? = some y := hy
      rw [hsome] at hh
      have hyrole : y.role = c.role := by simpa using hh
      rw [hyrole]
      exact fun he => h he.symm

/-- The head remaining after dropping leading model turns is a user turn. -/
theorem head_after_dropModel : ∀ (l : List Content) (c : Content),
    (l.dropWhile (fun x => x.role == Role.model)).head? = some c → c.role = Role.user := by
  intro l
  induction l with
  | nil => intro c h; simp [List.dropWhile] at h
  | cons a t ih =>
    intro c h
    rw [List.dropWhile_cons] at h
    by_cases hp : (a.role == Role.model) = true
    · rw [if_pos hp] at h
      exact ih c h
    · rw [if_neg hp] at h
      have hac : a = c := by simpa using h
      subst hac
      cases hr : a.role with
      | user => rfl
      | model => exact absurd (by simp [hr]) hp

/-- The trailing-placeholder append preserves both invariants. -/
theorem placeholder_append_invariants (trimmed : List Content)
    (hchain : List.Chain' (fun a b => a.role ≠ b.role) trimmed)
    (hhead : ∀ c, trimmed.head? = some c → c.role = Role.user) :
    (∀ c, (if needsPlaceholder trimmed then
        trimmed ++ [Content.mk Role.model [Part.text "..."]] else trimmed).head? = some c →
      c.role = Role.user) ∧
    List.Chain' (fun a b => a.role ≠ b.role)
      (if needsPlaceholder trimmed then
        trimmed ++ [Content.mk Role.model [Part.text "..."]] else trimmed) := by
  by_cases hnp : needsPlaceholder trimmed = true
  · rw [if_pos hnp]
    have hand := (Bool.and_eq_true _ _).mp hnp
    have hlen : 1 < trimmed.length := by simpa using hand.1
    have hlast : ∀ x, trimmed.getLast? = some x → x.role = Role.user := by
      intro x hx
      have h2 := hand.2
      rw [hx] at h2
      simpa using h2
    constructor
    · intro c hc
      cases trimmed with
      | nil => simp at hlen
      | cons a t =>
        have : a = c := by simpa using hc
        subst this
        exact hhead a rfl
    · refine List.Chain'.append hchain (List.chain'_singleton _) ?_
      intro x hx y hy
      have hxu : x.role = Role.user := hlast x hx
      have hym : y = Content.mk Role.model [Part.text "..."] := by
        have := hy
        simp only [List.head?_cons, Option.mem_def, Option.some.injEq] at this
        exact this.symm
      rw [hxu, hym]
      simp
  · rw [if_neg hnp]
    exact ⟨hhead, hchain⟩

/-- C2: for every input message list, the normalized turn sequence never
begins with a model turn and never contains two adjacent turns of the same
role. -/
theorem C2_normalization_invariants (history : List Message) :
    (∀ c, (formatHistoryForGemini history).head? = some c → c.role = Role.user) ∧
    List.Chain' (fun a b => a.role ≠ b.role) (formatHistoryForGemini history) := by
  have hmchain : List.Chain' (fun a b => a.role ≠ b.role)
      (mergeRuns (history.filterMap messageContent)) := by
    cases hv : history.filterMap messageContent with
    | nil => simp [mergeRuns]
    | cons c rest => exact mergeRunsGo_chain rest c
  have htchain : List.Chain' (fun a b => a.role ≠ b.role)
      ((mergeRuns (history.filterMap messageContent)).dropWhile
        (fun c => c.role == Role.model)) :=
    hmchain.suffix (List.dropWhile_suffix _)
  have hthead := head_after_dropModel (mergeRuns (history.filterMap messageContent))
  exact placeholder_append_invariants _ htchain hthead

/-- C2 witness: the invariants hold for a concrete out-of-order history. -/
theorem C2_normalization_invariants_witness :
    List.Chain' (fun a b => a.role ≠ b.role)
      (formatHistoryForGemini
        [Message.mk "1" Role.model "hey" none false false,
         Message.mk "2" Role.user "hi" none false false,
         Message.mk "3" Role.user "again" none false false]) :=
  (C2_normalization_invariants
    [Message.mk "1" Role.model "hey" none false false,
     Message.mk "2" Role.user "hi" none false false,
     Message.mk "3" Role.user "again" none false false]).2

/-- C10: whenever `sendMessageToEve` returns an error response (any
classified kind, QUOTA_EXCEEDED included), the module-level chat session
handle and tracked API key are cleared; and when no session handle exists,
the next chat send re-initializes the session with exactly the credential it
is given. -/
theorem C10_session_cleared :
    (∀ (st : GeminiState) (message : String) (history : List Message)
        (attachmentBase64 : Option String) (forceImageGeneration : Bool)
        (apiKey : Option String) (envKey : String) (gradioEndpoint : Option String)
        (aiImageGeneration : Bool) (language : Language) (createOk : Bool)
        (evolve : Except String (String × Option String))
        (stage1 : Except String (Option String)) (predict : Except String (List GradioItem))
        (chat : Except String String),
      (sendMessageToEve st message history attachmentBase64 forceImageGeneration apiKey envKey
          gradioEndpoint aiImageGeneration language createOk evolve stage1 predict
          chat).2.isError = true →
      (sendMessageToEve st message history attachmentBase64 forceImageGeneration apiKey envKey
          gradioEndpoint aiImageGeneration language createOk evolve stage1 predict
          chat).1.chatSession = none ∧
      (sendMessageToEve st message history attachmentBase64 forceImageGeneration apiKey envKey
          gradioEndpoint aiImageGeneration language createOk evolve stage1 predict
          chat).1.currentApiKey = none) ∧
    (∀ (st : GeminiState) (message : String) (history : List Message)
        (apiKey : Option String) (envKey : String) (gradioEndpoint : Option String)
        (aiImageGeneration : Bool) (language : Language) (createOk : Bool)
        (evolve : Except String (String × Option String))
        (stage1 : Except String (Option String)) (predict : Except String (List GradioItem))
        (reply : String),
      st.chatSession = none →
      (sendMessageToEve st message history none false apiKey envKey gradioEndpoint
          aiImageGeneration language createOk evolve stage1 predict
          (Except.ok reply)).1.chatSession =
        some (ChatSession.mk (getApiKey apiKey envKey) language
          (if createOk then formatHistoryForGemini history else []))) := by
  constructor
  · intro st message history att force apiKey envKey gep ai lang createOk evolve stage1 predict chat
    simp only [sendMessageToEve]
    split
    · cases evolve with
      | ok r =>
        intro h
        simp [processImageResponse] at h
      | error e =>
        intro _
        exact ⟨rfl, rfl⟩
    · split
      · cases hgw : generateWithGradio (rephrasePromptForGradio stage1 ++ IMAGE_QUALITY_SUFFIX)
            gep predict with
        | ok u =>
          intro h
          simp at h
        | error e =>
          intro _
          exact ⟨rfl, rfl⟩
      · cases chat with
        | error e =>
          intro _
          exact ⟨rfl, rfl⟩
        | ok reply =>
          intro h
          simp at h
  · intro st message history apiKey envKey gep ai lang createOk evolve stage1 predict reply hnone
    simp only [sendMessageToEve]
    rw [if_pos (Or.inl hnone)]
    have hbranch1 : ¬((none : Option String).isSome = true ∧ False) := by simp
    simp [initializeChat]

/-- C10 witness: a quota-classified chat failure clears the session and key;
a fresh send with a given key creates a session bound to that key. -/
theorem C10_session_cleared_witness :
    (sendMessageToEve
        (GeminiState.mk (some (ChatSession.mk "oldkey" Language.english [])) Language.english
          (some "oldkey") 0)
        "hi" [] none false (some "oldkey") "" (some "https://g.example") true Language.english
        true (Except.error "x") (Except.error "x") (Except.error "x")
        (Except.error "Error 429: quota exceeded")).1.chatSession = none ∧
    (sendMessageToEve
        (GeminiState.mk none Language.english none 0)
        "hi" [] none false (some "mykey") "" (some "https://g.example") true Language.english
        true (Except.error "x") (Except.error "x") (Except.error "x")
        (Except.ok "hello")).1.chatSession =
      some (ChatSession.mk "mykey" Language.english []) := by
  constructor
  · exact (C10_session_cleared.1
      (GeminiState.mk (some (ChatSession.mk "oldkey" Language.english [])) Language.english
        (some "oldkey") 0)
      "hi" [] none false (some "oldkey") "" (some "https://g.example") true Language.english
      true (Except.error "x") (Except.error "x") (Except.error "x")
      (Except.error "Error 429: quota exceeded") (by rfl)).1
  · have h := C10_session_cleared.2
      (GeminiState.mk none Language.english none 0)
      "hi" [] (some "mykey") "" (some "https://g.example") true Language.english
      true (Except.error "x") (Except.error "x") (Except.error "x") "hello" rfl
    simpa using h

/-- No tag match can start on a character other than `[`. -/
theorem tryMatchTag_none_of_head_ne (kw : List Char) (c : Char) (t : List Char)
    (h : c ≠ '[') : tryMatchTag kw (c :: t) = none := by
  have hne : (c :: t).take (kw.length + 1) ≠ '[' :: kw := by
    rw [List.take_succ_cons]
    intro he
    injection he with h1 _
    exact h h1
  simp only [tryMatchTag]
  rw [if_neg hne]

/-- A `contains` returning false means non-membership. -/
theorem not_mem_of_contains_false (s : List Char) (c : Char) (h : s.contains c = false) :
    c ∉ s := by
  simp [List.contains_iff_exists_mem_beq] at h
  exact h

/-- A non-matching head character is copied through by the replace pass. -/
theorem replaceTag_cons_none (kw : List Char) (c : Char) (t : List Char)
    (h : tryMatchTag kw (c :: t) = none) :
    replaceTag kw (c :: t) = c :: replaceTag kw t := by
  simp only [replaceTag, List.length_cons, replaceTagF, h]

/-- The fuel of the replace worker is irrelevant once it covers the input. -/
theorem replaceTagF_fuel_irrel (kw : List Char) :
    ∀ (f1 f2 : Nat) (s : List Char), s.length ≤ f1 → s.length ≤ f2 →
    replaceTagF kw f1 s = replaceTagF kw f2 s := by
  intro f1
  induction f1 with
  | zero =>
    intro f2 s h1 _
    have hs : s = [] := List.eq_nil_of_length_eq_zero (by omega)
    subst hs
    cases f2 <;> rfl
  | succ f1 ih =>
    intro f2 s h1 h2
    cases s with
    | nil => cases f2 <;> rfl
    | cons c t =>
      obtain ⟨f3, rfl⟩ : ∃ k, f2 = k + 1 := ⟨f2 - 1, by simp at h2; omega⟩
      simp only [replaceTagF]
      cases hm : tryMatchTag kw (c :: t) with
      | some pr =>
        obtain ⟨d, rest⟩ := pr
        have hlt := tryMatchTag_shrinks kw (c :: t) d rest hm
        simp only [List.length_cons] at hlt h1 h2
        exact ih f3 rest (by omega) (by omega)
      | none =>
        simp only [List.length_cons] at h1 h2
        rw [ih f3 t (by omega) (by omega)]

/-- A match at the head removes it and the pass resumes after the match. -/
theorem replaceTag_cons_some (kw : List Char) (c : Char) (t : List Char)
    (d : Option (List Char)) (rest : List Char)
    (h : tryMatchTag kw (c :: t) = some (d, rest)) :
    replaceTag kw (c :: t) = replaceTag kw rest := by
  have hlt := tryMatchTag_shrinks kw (c :: t) d rest h
  simp only [List.length_cons] at hlt
  simp only [replaceTag, List.length_cons, replaceTagF, h]
  exact replaceTagF_fuel_irrel kw t.length rest.length rest (by omega) le_rfl

/-- A bracket-free prefix passes through the replace unchanged. -/
theorem replaceTag_bracket_free (kw : List Char) :
    ∀ (s rest : List Char), '[' ∉ s →
    replaceTag kw (s ++ rest) = s ++ replaceTag kw rest := by
  intro s
  induction s with
  | nil => intro rest _; rfl
  | cons c t ih =>
    intro rest h
    have hc : c ≠ '[' := fun he => h (he ▸ List.mem_cons_self c t)
    rw [List.cons_append,
      replaceTag_cons_none kw c (t ++ rest) (tryMatchTag_none_of_head_ne kw c _ hc),
      ih rest (fun hm => h (List.mem_cons_of_mem c hm))]
    rfl

/-- The lazy scan runs through a clean description to the closing bracket. -/
theorem scanToBracket_through :
    ∀ (d rest : List Char), ']' ∉ d → (∀ x ∈ d, dotChar x = true) →
    scanToBracket (d ++ ']' :: rest) = some (d, rest) := by
  intro d
  induction d with
  | nil => intro rest _ _; simp [scanToBracket]
  | cons c t ih =>
    intro rest h1 h2
    have hc : c ≠ ']' := fun he => h1 (he ▸ List.mem_cons_self c t)
    have hdot : dotChar c = true := h2 c (List.mem_cons_self c t)
    rw [List.cons_append]
    simp only [scanToBracket]
    rw [if_neg hc, if_pos hdot,
      ih rest (fun hm => h1 (List.mem_cons_of_mem c hm))
        (fun x hx => h2 x (List.mem_cons_of_mem c hx))]

/-- `takeWhile` over a list ending in a failing separator only sees the head
part. -/
theorem takeWhile_append_stop (q : Char → Bool) (hq : q ']' = false) :
    ∀ (d r : List Char), (d ++ ']' :: r).takeWhile q = d.takeWhile q := by
  intro d r
  induction d with
  | nil => simp [List.takeWhile_cons, hq]
  | cons c t ih =>
    rw [List.cons_append]
    by_cases hc : q c = true
    · simp [List.takeWhile_cons, hc, ih]
    · simp [List.takeWhile_cons, hc]

/-- The tail match after `[KEYWORD` consumes a clean `: desc]` body exactly. -/
theorem matchAfterKeyword_render (d rest : List Char)
    (h1 : ']' ∉ d) (h2 : ∀ x ∈ d, dotChar x = true) :
    matchAfterKeyword (':' :: (d ++ ']' :: rest)) =
      some (some (d.drop (d.takeWhile wsChar).length), rest) := by
  have hws : wsChar ']' = false := by decide
  have htk : (d ++ ']' :: rest).takeWhile wsChar = d.takeWhile wsChar :=
    takeWhile_append_stop wsChar hws d rest
  have hlen : (d.takeWhile wsChar).length ≤ d.length :=
    (List.takeWhile_sublist wsChar).length_le
  have hdrop : (d ++ ']' :: rest).drop ((d.takeWhile wsChar).length) =
      d.drop ((d.takeWhile wsChar).length) ++ ']' :: rest :=
    List.drop_append_of_le_length hlen
  have hsub : ∀ x, x ∈ d.drop ((d.takeWhile wsChar).length) → x ∈ d :=
    fun x hx => (List.drop_suffix _ d).subset hx
  have hscan := scanToBracket_through (d.drop ((d.takeWhile wsChar).length)) rest
    (fun hm => h1 (hsub _ hm)) (fun x hx => h2 x (hsub x hx))
  simp only [matchAfterKeyword, if_true]
  rw [htk, hdrop, hscan]

/-- Matching a tag right at its own keyword reduces to the tail match. -/
theorem tryMatchTag_at_render (kw x : List Char) :
    tryMatchTag kw ('[' :: (kw ++ x)) = matchAfterKeyword x := by
  simp only [tryMatchTag]
  rw [if_pos]
  · congr 1
    rw [List.drop_succ_cons, List.drop_left]
  · rw [List.take_succ_cons, List.take_left]

/-- Well-formedness of a tag description, unpacked. -/
theorem goodPiece_tag_some (u : VisualType) (dd : List Char)
    (hg : goodPiece (Piece.tag u (some dd)) = true) :
    '[' ∉ dd ∧ ']' ∉ dd ∧ ∀ x ∈ dd, dotChar x = true := by
  simp only [goodPiece, Bool.and_eq_true, Bool.not_eq_true'] at hg
  exact ⟨not_mem_of_contains_false dd '[' hg.1.1, not_mem_of_contains_false dd ']' hg.1.2,
    (List.all_eq_true).mp hg.2⟩

/-- The replace pass removes a complete well-formed tag of its own keyword. -/
theorem replaceTag_remove_self (t : VisualType) (d : Option (List Char)) (rest : List Char)
    (hg : goodPiece (Piece.tag t d) = true) :
    replaceTag (kwOf t) (renderPiece (Piece.tag t d) ++ rest) = replaceTag (kwOf t) rest := by
  cases d with
  | none =>
    have hform : renderPiece (Piece.tag t none) ++ rest = '[' :: (kwOf t ++ (']' :: rest)) := by
      simp [renderPiece]
    rw [hform]
    have hm : tryMatchTag (kwOf t) ('[' :: (kwOf t ++ (']' :: rest))) = some (none, rest) := by
      rw [tryMatchTag_at_render]
      simp [matchAfterKeyword]
    exact replaceTag_cons_some _ _ _ _ _ hm
  | some dd =>
    obtain ⟨_, h2, h3⟩ := goodPiece_tag_some t dd hg
    have hform : renderPiece (Piece.tag t (some dd)) ++ rest =
        '[' :: (kwOf t ++ (':' :: (dd ++ ']' :: rest))) := by
      simp [renderPiece]
    rw [hform]
    have hm : tryMatchTag (kwOf t) ('[' :: (kwOf t ++ (':' :: (dd ++ ']' :: rest)))) =
        some (some (dd.drop ((dd.takeWhile wsChar).length)), rest) := by
      rw [tryMatchTag_at_render, matchAfterKeyword_render dd rest h2 h3]
    exact replaceTag_cons_some _ _ _ _ _ hm

/-- A tag of the other keyword never matches this keyword. -/
theorem tryMatchTag_cross_none (t u : VisualType) (hne : t ≠ u) (x : List Char) :
    tryMatchTag (kwOf t) ('[' :: (kwOf u ++ x)) = none := by
  have hS : SELFIEkw = ['S','E','L','F','I','E'] := rfl
  have hC : SCENEkw = ['S','C','E','N','E'] := rfl
  cases t <;> cases u
  · exact absurd rfl hne
  · simp only [kwOf]
    rw [hS, hC]
    simp [tryMatchTag, List.cons_append]
  · simp only [kwOf]
    rw [hS, hC]
    simp [tryMatchTag, List.cons_append]
  · exact absurd rfl hne

/-- The rendered body of a tag contains no opening bracket after its head. -/
theorem renderPiece_tag_tail_bracket_free (u : VisualType) (d : Option (List Char))
    (hg : goodPiece (Piece.tag u d) = true) :
    ∃ inner, renderPiece (Piece.tag u d) = '[' :: inner ∧ '[' ∉ inner ∧
      ∃ y, inner = kwOf u ++ y := by
  have hkw : '[' ∉ kwOf u := by cases u <;> decide
  cases d with
  | none =>
    refine ⟨kwOf u ++ [']'], rfl, ?_, [']'], rfl⟩
    intro hm
    rcases List.mem_append.mp hm with h | h
    · exact hkw h
    · simp at h
  | some dd =>
    obtain ⟨h1, _, _⟩ := goodPiece_tag_some u dd hg
    refine ⟨kwOf u ++ (':' :: (dd ++ [']'])), rfl, ?_, ':' :: (dd ++ [']']), rfl⟩
    intro hm
    rcases List.mem_append.mp hm with h | h
    · exact hkw h
    · rcases List.mem_cons.mp h with h | h
      · cases h
      · rcases List.mem_append.mp h with h | h
        · exact h1 h
        · simp at h

/-- The replace pass copies a complete tag of the other keyword through. -/
theorem replaceTag_skip_other (t u : VisualType) (hne : t ≠ u) (d : Option (List Char))
    (rest : List Char) (hg : goodPiece (Piece.tag u d) = true) :
    replaceTag (kwOf t) (renderPiece (Piece.tag u d) ++ rest) =
      renderPiece (Piece.tag u d) ++ replaceTag (kwOf t) rest := by
  obtain ⟨inner, hform, hnb, y, hy⟩ := renderPiece_tag_tail_bracket_free u d hg
  rw [hform, List.cons_append]
  have hm : tryMatchTag (kwOf t) ('[' :: (inner ++ rest)) = none := by
    rw [hy, List.append_assoc]
    exact tryMatchTag_cross_none t u hne (y ++ rest)
  rw [replaceTag_cons_none _ _ _ hm, replaceTag_bracket_free (kwOf t) inner rest hnb]
  rfl

/-- One full replace pass over a well-formed reply removes exactly the tags
of its keyword and keeps everything else. -/
theorem replaceTag_renderPieces (t : VisualType) :
    ∀ (ps : List Piece), (∀ p ∈ ps, goodPiece p = true) →
    replaceTag (kwOf t) (renderPieces ps) = renderPieces (ps.filter (notTagOf t)) := by
  intro ps
  induction ps with
  | nil => intro _; rfl
  | cons p ps2 ih =>
    intro h
    have hp := h p (List.mem_cons_self p ps2)
    have hps2 : ∀ q ∈ ps2, goodPiece q = true := fun q hq => h q (List.mem_cons_of_mem p hq)
    have hrp : renderPieces (p :: ps2) = renderPiece p ++ renderPieces ps2 := by
      simp [renderPieces]
    rw [hrp]
    cases p with
    | plain s =>
      have hnb : '[' ∉ s := by
        simp only [goodPiece, Bool.not_eq_true'] at hp
        exact not_mem_of_contains_false s '[' hp
      rw [show renderPiece (Piece.plain s) = s from rfl,
        replaceTag_bracket_free _ s _ hnb, ih hps2]
      simp [List.filter_cons, notTagOf, renderPieces, renderPiece]
    | tag u dsc =>
      by_cases hu : u = t
      · subst hu
        rw [replaceTag_remove_self u dsc _ hp, ih hps2]
        simp [List.filter_cons, notTagOf]
      · rw [replaceTag_skip_other t u (fun he => hu he.symm) dsc _ hp, ih hps2]
        have hnt : notTagOf t (Piece.tag u dsc) = true := by simp [notTagOf, hu]
        simp [List.filter_cons, hnt, renderPieces]


/-- No tag can be found in bracket-free text. -/
theorem findTag_none_of_bracket_free (kw : List Char) :
    ∀ (s : List Char), '[' ∉ s → findTag kw s = none := by
  intro s
  induction s with
  | nil => intro _; rfl
  | cons c t ih =>
    intro h
    have hc : c ≠ '[' := fun he => h (he ▸ List.mem_cons_self c t)
    simp only [findTag, tryMatchTag_none_of_head_ne kw c t hc]
    exact ih (fun hm => h (List.mem_cons_of_mem c hm))

/-- Bracket-free text contains no directive tag. -/
theorem containsTag_false_of_bracket_free (s : List Char) (h : '[' ∉ s) :
    containsTag s = false := by
  simp [containsTag, findTag_none_of_bracket_free SELFIEkw s h,
    findTag_none_of_bracket_free SCENEkw s h]

/-- A reply of plain pieces only renders without any opening bracket. -/
theorem renderPieces_bracket_free (qs : List Piece)
    (h : ∀ p ∈ qs, goodPiece p = true ∧ notTagOf VisualType.selfie p = true ∧
      notTagOf VisualType.scene p = true) :
    '[' ∉ renderPieces qs := by
  intro hmem
  rw [renderPieces, List.mem_flatten] at hmem
  obtain ⟨l, hl, hin⟩ := hmem
  obtain ⟨p, hp, rfl⟩ := List.mem_map.mp hl
  obtain ⟨hg, hns, hnc⟩ := h p hp
  cases p with
  | plain s =>
    simp only [goodPiece, Bool.not_eq_true'] at hg
    exact not_mem_of_contains_false s '[' hg hin
  | tag u dsc =>
    cases u
    · simp [notTagOf] at hnc
    · simp [notTagOf] at hns

/-- Trimming only removes characters. -/
theorem mem_of_mem_trimL (x : Char) (s : List Char) (h : x ∈ trimL s) : x ∈ s := by
  simp only [trimL, List.mem_reverse] at h
  have h2 := (List.dropWhile_suffix wsChar).subset h
  rw [List.mem_reverse] at h2
  exact (List.dropWhile_suffix wsChar).subset h2

/-- C6 (amended): for every assistant reply built from plain text (without
an opening bracket) interleaved with complete directive tags whose
descriptions contain no brackets and no line terminators, the displayed text
contains no directive tag — in any branch, with the toggle on or off.  (For
adversarial replies where removing a tag makes the surrounding characters
form a new tag, a tag can survive the single-pass strip — see the
counterexample.) -/
theorem C6_tags_stripped (ps : List Piece) (msg : String) (ai : Bool) (count : Nat)
    (ep : Option String) (hgood : ps.all goodPiece = true) :
    containsTag (processReply (String.mk (renderPieces ps)) msg ai count ep).text.data =
      false := by
  have hall : ∀ p ∈ ps, goodPiece p = true := (List.all_eq_true).mp hgood
  have h1 : replaceTag SELFIEkw (renderPieces ps) =
      renderPieces (ps.filter (notTagOf VisualType.selfie)) :=
    replaceTag_renderPieces VisualType.selfie ps hall
  have hall2 : ∀ p ∈ ps.filter (notTagOf VisualType.selfie), goodPiece p = true :=
    fun p hp => hall p (List.mem_filter.mp hp).1
  have h2 : replaceTag SCENEkw (renderPieces (ps.filter (notTagOf VisualType.selfie))) =
      renderPieces ((ps.filter (notTagOf VisualType.selfie)).filter
        (notTagOf VisualType.scene)) :=
    replaceTag_renderPieces VisualType.scene _ hall2
  have h3 : '[' ∉ renderPieces ((ps.filter (notTagOf VisualType.selfie)).filter
      (notTagOf VisualType.scene)) := by
    apply renderPieces_bracket_free
    intro p hp
    have hmem2 := List.mem_filter.mp hp
    have hmem1 := List.mem_filter.mp hmem2.1
    exact ⟨hall p hmem1.1, hmem1.2, hmem2.2⟩
  have hstr : '[' ∉ trimL (replaceTag SCENEkw (replaceTag SELFIEkw
      (String.mk (renderPieces ps)).data)) := by
    intro hm
    have hdata : (String.mk (renderPieces ps)).data = renderPieces ps := rfl
    rw [hdata, h1, h2] at hm
    exact h3 (mem_of_mem_trimL _ _ hm)
  have hap : '[' ∉ apologyText.data := by decide
  simp only [processReply]
  split
  · rw [String.data_append]
    apply containsTag_false_of_bracket_free
    intro hm
    rcases List.mem_append.mp hm with h | h
    · exact hstr h
    · exact hap h
  · exact containsTag_false_of_bracket_free _ hstr

/-- C6 witness: the spec example reply strips cleanly. -/
theorem C6_tags_stripped_witness :
    containsTag (processReply
      (String.mk (renderPieces
        [Piece.plain "I feel shy ".data, Piece.tag VisualType.selfie (some "blushing".data)]))
      "hi" true 0 (some "https://g.example")).text.data = false :=
  C6_tags_stripped
    [Piece.plain "I feel shy ".data, Piece.tag VisualType.selfie (some "blushing".data)]
    "hi" true 0 (some "https://g.example") (by decide)

end Eve
